import Mathlib

/-!
Verification of the `self-meter` library (a process resource meter).

The Rust sources are shallowly embedded: strings are lists of characters,
`u64` values are natural numbers reduced modulo `2^64` wherever the source
performs 64-bit arithmetic, `f32` arithmetic in report computation is
modelled by exact rational arithmetic, fallible functions return `Except`,
and the `Meter`'s mutable state is passed explicitly.  OS file reads are
modelled by a `ScanInput` record holding the text each `/proc` source
would yield (`none` standing for an IO failure).
-/

deriving instance DecidableEq for Except

/-- Strings from the source are modelled as lists of characters. -/
abbrev Str := List Char

/-- `type Pid = u32` from `lib.rs`. -/
abbrev Pid := Nat

/-- The modulus of 64-bit unsigned arithmetic. -/
def U64 : Nat := 2 ^ 64

/-- Wrapping 64-bit addition (release-mode `u64` `+`). -/
def add64 (a b : Nat) : Nat := (a + b) % U64

/-- Wrapping 64-bit subtraction (release-mode `u64` `-`), for `a b < U64`. -/
def sub64 (a b : Nat) : Nat := (a + U64 - b) % U64

/-- Wrapping 64-bit multiplication (release-mode `u64` `*`). -/
def mul64 (a b : Nat) : Nat := (a * b) % U64

/-- Split a character list at every character satisfying `p`, keeping empty
chunks, as Rust's `str::split` does (so `"a:b"` gives `["a", "b"]` and
`""` gives `[""]`). -/
def splitPred (p : Char → Bool) (s : Str) : List Str :=
  s.foldr
    (fun ch acc =>
      match acc with
      | [] => [[ch]]
      | curr :: rest =>
        if p ch then [] :: curr :: rest else (ch :: curr) :: rest)
    [[]]

/-- Rust `str::split(c)` for a single character pattern. -/
def splitOnChar (c : Char) (s : Str) : List Str :=
  splitPred (fun ch => ch == c) s

/-- Rust `str::split_whitespace`: whitespace-separated tokens, no empties. -/
def splitWhitespace (s : Str) : List Str :=
  (splitPred Char.isWhitespace s).filter (fun t => !t.isEmpty)

/-- Strip one trailing carriage return, as Rust's `str::lines` does. -/
def stripCR (l : Str) : Str :=
  if l.getLast? = some '\r' then l.dropLast else l

/-- Rust `str::lines`: split on `'\n'`, drop a final empty line produced by a
trailing newline, and strip a trailing `'\r'` from each line. -/
def linesOf (s : Str) : List Str :=
  let parts := splitOnChar '\n' s
  let parts := if parts.getLast? = some [] then parts.dropLast else parts
  parts.map stripCR

/-- Rust `str::trim` (restricted to the whitespace predicate). -/
def trimStr (s : Str) : Str :=
  ((s.dropWhile Char.isWhitespace).reverse.dropWhile Char.isWhitespace).reverse

/-- Numeric value of a list of ASCII digit characters. -/
def digitsVal (s : Str) : Nat :=
  s.foldl (fun a c => a * 10 + (c.toNat - 48)) 0

/-- Rust `str::parse::<u64>()`: an optional leading `'+'`, then one or more
ASCII digits, and the value must fit in 64 bits; anything else fails. -/
def parseU64 (s : Str) : Option Nat :=
  let t := if s.head? = some '+' then s.tail else s
  if t ≠ [] ∧ t.all Char.isDigit then
    if digitsVal t < U64 then some (digitsVal t) else none
  else none

/-- Error enum for `/proc/uptime` (from `error.rs`; the `io::Error` and
`ParseIntError` payloads are collapsed since only the variant matters). -/
inductive UptimeError where
  | Io
  | ParseInt
  | BadFormat
deriving DecidableEq

/-- Error enum for `/proc/self/stat` and per-thread stat files. -/
inductive StatError where
  | Io
  | ParseInt
  | BadFormat
deriving DecidableEq

/-- Error enum for `/proc/self/io`. -/
inductive IoStatError where
  | Io
  | ParseInt
deriving DecidableEq

/-- Error enum for `/proc/self/status`. -/
inductive StatusError where
  | Io
  | ParseInt
  | BadUnit
  | BadFormat
deriving DecidableEq

/-- Top-level error enum of the crate. -/
inductive Error where
  | Uptime (e : UptimeError)
  | Status (e : StatusError)
  | Stat (e : StatError)
  | ThreadStat (tid : Pid) (e : StatError)
  | IoStat (e : IoStatError)
deriving DecidableEq

/-- Lift the result of `parse::<u64>()` into the uptime error type. -/
def parseU64Up (s : Str) : Except UptimeError Nat :=
  match parseU64 s with
  | some v => .ok v
  | none => .error .ParseInt

/-- `parse_uptime` from `scan.rs`: `"<int>.<d>"` or `"<int>.<dd>"` in
hundredths of a second, rejecting inputs of length at most 3; the final
64-bit arithmetic wraps as in the source. -/
def parse_uptime (value : Str) : Except UptimeError Nat :=
  if value.length ≤ 3 then .error .BadFormat
  else
    match value.findIdx? (fun c => c = '.') with
    | none => .error .BadFormat
    | some dot =>
      let integer := value.take dot
      let decimals := value.drop dot
      if decimals.length = 1 + 1 then do
        let i ← parseU64Up integer
        let d ← parseU64Up (decimals.drop 1)
        .ok ((i * 100 + d * 10) % U64)
      else if decimals.length = 1 + 2 then do
        let i ← parseU64Up integer
        let d ← parseU64Up (decimals.drop 1)
        .ok ((i * 100 + d) % U64)
      else .error .BadFormat

/-- `parse_memory` from `scan.rs`: first whitespace token is a `u64`, the
second must be exactly `"kB"`, and the value is scaled to bytes by a
64-bit multiplication by 1024; a missing or different unit is `BadUnit`. -/
def parse_memory (value : Str) : Except StatusError Nat :=
  match splitWhitespace value with
  | [] => .error .BadFormat
  | v :: rest =>
    match parseU64 v with
    | none => .error .ParseInt
    | some value =>
      match rest.head? with
      | some u => if u = "kB".toList then .ok (mul64 value 1024) else .error .BadUnit
      | none => .error .BadUnit

/-- Index of the last occurrence of `c` (Rust `str::rfind`). -/
def rfindIdx (c : Char) : Str → Option Nat
  | [] => none
  | x :: xs =>
    match rfindIdx c xs with
    | some i => some (i + 1)
    | none => if x = c then some 0 else none

/-- `iter.nth(n)` / `iter.next()` on the field list, `ok_or(BadFormat)`. -/
def expectTok (t : Option Str) : Except StatError Str :=
  match t with
  | some t => .ok t
  | none => .error .BadFormat

/-- `str::parse::<u64>` on a stat field, failing with `ParseInt`. -/
def expectNum (t : Str) : Except StatError Nat :=
  match parseU64 t with
  | some v => .ok v
  | none => .error .ParseInt

/-- Per-entity cumulative CPU counters (`ThreadInfo` from `lib.rs`). -/
structure ThreadInfo where
  user_time : Nat
  system_time : Nat
  child_user_time : Nat
  child_system_time : Nat
deriving DecidableEq

/-- `ThreadInfo::new()` from `scan.rs`: all counters zero. -/
def ThreadInfo.new : ThreadInfo :=
  { user_time := 0, system_time := 0, child_user_time := 0, child_system_time := 0 }

/-- The field-extraction part of `read_stat` from `scan.rs`: from the
whitespace-separated fields after the last `')'`, take the 12th, 13th,
14th and 15th (1-indexed) as user, system, child-user and child-system
ticks, in that order of evaluation. -/
def statFields (fields : List Str) : Except StatError ThreadInfo := do
  let t12 ← expectTok fields[11]?
  let user ← expectNum t12
  let t13 ← expectTok fields[12]?
  let system ← expectNum t13
  let t14 ← expectTok fields[13]?
  let cuser ← expectNum t14
  let t15 ← expectTok fields[14]?
  let csystem ← expectNum t15
  Except.ok
    { user_time := user, system_time := system,
      child_user_time := cuser, child_system_time := csystem }

/-- `read_stat` from `scan.rs`, as a pure function of the file text: locate
the last `')'`, tokenize only what follows it, and extract the four tick
fields.  (On success the source overwrites every field of the target
`ThreadInfo`, so the committed result does not depend on its prior value.) -/
def read_stat (text : Str) : Except StatError ThreadInfo :=
  match rfindIdx ')' text with
  | none => .error .BadFormat
  | some i => statFields (splitWhitespace (text.drop (i + 1)))

/-- A point-in-time capture of all counters (`Snapshot` from `lib.rs`).
`SystemTime` and `Instant` are modelled as abstract natural clock values;
the per-thread map is an association list. -/
structure Snapshot where
  timestamp : Nat
  instant : Nat
  uptime : Nat
  idle_time : Nat
  process : ThreadInfo
  memory_rss : Nat
  memory_virtual : Nat
  memory_virtual_peak : Nat
  memory_swap : Nat
  read_bytes : Nat
  write_bytes : Nat
  read_ops : Nat
  write_ops : Nat
  read_disk_bytes : Nat
  write_disk_bytes : Nat
  write_cancelled_bytes : Nat
  threads : List (Pid × ThreadInfo)
deriving DecidableEq

/-- `Snapshot::new` from `scan.rs`: zeroed counters and a fresh per-thread
map with one zeroed entry per registered thread.  The source stamps the
current time here; `scan` immediately overwrites both stamps, so the model
uses zero. -/
def Snapshot.new (names : List (Pid × Str)) : Snapshot :=
  { timestamp := 0, instant := 0, uptime := 0, idle_time := 0,
    process := ThreadInfo.new,
    memory_rss := 0, memory_virtual := 0, memory_virtual_peak := 0,
    memory_swap := 0,
    read_bytes := 0, write_bytes := 0, read_ops := 0, write_ops := 0,
    read_disk_bytes := 0, write_disk_bytes := 0, write_cancelled_bytes := 0,
    threads := names.map (fun p => (p.1, ThreadInfo.new)) }

/-- A zeroed snapshot used as the (unreachable) default of list indexing. -/
def dummySnapshot : Snapshot := Snapshot.new []

/-- The `Meter` state from `lib.rs`.  The scratch string buffers and the
long-lived `/proc/self/io` handle have no observable effect on committed
state and are not modelled; file contents arrive through `ScanInput`. -/
structure Meter where
  scan_interval : Nat
  num_cpus : Nat
  num_snapshots : Nat
  start_time : Nat
  snapshots : List Snapshot
  thread_names : List (Pid × Str)
  memory_rss_peak : Nat
  memory_swap_peak : Nat
deriving DecidableEq

/-- `Meter::_new` from `meter.rs`: capacity 10, empty store and registry,
zeroed peak trackers. -/
def Meter.new (scan_interval num_cpus start_time : Nat) : Meter :=
  { scan_interval := scan_interval, num_cpus := num_cpus,
    num_snapshots := 10, start_time := start_time,
    snapshots := [], thread_names := [],
    memory_rss_peak := 0, memory_swap_peak := 0 }

/-- `Meter::track_thread`: idempotent upsert into the registry (`HashMap`
insert, modelled on the association list). -/
def Meter.track_thread (m : Meter) (tid : Pid) (name : Str) : Meter :=
  { m with thread_names :=
      if (m.thread_names.lookup tid).isSome then
        m.thread_names.map (fun p => if p.1 = tid then (tid, name) else p)
      else m.thread_names ++ [(tid, name)] }

/-- `Meter::untrack_thread` from `meter.rs`: remove the id from the
registry and from the per-thread map of every retained snapshot. -/
def Meter.untrack_thread (m : Meter) (tid : Pid) : Meter :=
  { m with
    thread_names := m.thread_names.filter (fun p => p.1 ≠ tid),
    snapshots := m.snapshots.map (fun s =>
      { s with threads := s.threads.filter (fun p => p.1 ≠ tid) }) }

/-- The text each `/proc` source yields during one `scan` call, plus the
two clock stamps taken at its start; `none` models an IO failure reading
that source. -/
structure ScanInput where
  timestamp : Nat
  instant : Nat
  uptime_text : Option Str
  stat_text : Option Str
  thread_stat : Pid → Option Str
  status_text : Option Str
  io_text : Option Str

/-- `threads.entry(tid).or_insert_with(ThreadInfo::new)` followed by a full
overwrite by `read_stat`: replace the entry for `tid`, or append one. -/
def upsertInfo (tid : Pid) (info : ThreadInfo) :
    List (Pid × ThreadInfo) → List (Pid × ThreadInfo)
  | [] => [(tid, info)]
  | p :: rest =>
    if p.1 = tid then (tid, info) :: rest else p :: upsertInfo tid info rest

/-- The per-thread loop of `read_cpu_times` in `scan.rs`: for each
registered thread read its stat file, failing with `ThreadStat` on a
missing file or parse error. -/
def readThreadStats (inp : ScanInput) :
    List (Pid × Str) → List (Pid × ThreadInfo) →
    Except Error (List (Pid × ThreadInfo))
  | [], acc => .ok acc
  | (tid, _) :: rest, acc =>
    match inp.thread_stat tid with
    | none => .error (.ThreadStat tid .Io)
    | some txt =>
      match read_stat txt with
      | .error e => .error (.ThreadStat tid e)
      | .ok info => readThreadStats inp rest (upsertInfo tid info acc)

/-- One line of the `read_memory` loop in `scan.rs`: split on `':'` and
update the matching memory field via `parse_memory`. -/
def applyStatusLine (snap : Snapshot) (line : Str) : Except StatusError Snapshot :=
  match splitOnChar ':' line with
  | k :: text :: _ =>
    if k = "VmPeak".toList then do
      let n ← parse_memory text; .ok { snap with memory_virtual_peak := n }
    else if k = "VmSize".toList then do
      let n ← parse_memory text; .ok { snap with memory_virtual := n }
    else if k = "VmRSS".toList then do
      let n ← parse_memory text; .ok { snap with memory_rss := n }
    else if k = "VmSwap".toList then do
      let n ← parse_memory text; .ok { snap with memory_swap := n }
    else .ok snap
  | _ => .ok snap

/-- `Meter::read_memory` from `scan.rs`, as a pure function of the
`/proc/self/status` text. -/
def read_memory (snap : Snapshot) (text : Str) : Except StatusError Snapshot :=
  (linesOf text).foldlM applyStatusLine snap

/-- `text.parse::<u64>()` in the IO-counter loop, failing with
`IoStat(ParseInt)`. -/
def ioNum (t : Str) : Except Error Nat :=
  match parseU64 t with
  | some v => .ok v
  | none => .error (.IoStat .ParseInt)

/-- One line of the `read_io` loop in `scan.rs`: split on `':'`, trim the
value, and update the matching IO counter. -/
def applyIoLine (snap : Snapshot) (line : Str) : Except Error Snapshot :=
  match splitOnChar ':' line with
  | k :: v :: _ =>
    let text := trimStr v
    if k = "rchar".toList then do
      let n ← ioNum text; .ok { snap with read_bytes := n }
    else if k = "wchar".toList then do
      let n ← ioNum text; .ok { snap with write_bytes := n }
    else if k = "syscr".toList then do
      let n ← ioNum text; .ok { snap with read_ops := n }
    else if k = "syscw".toList then do
      let n ← ioNum text; .ok { snap with write_ops := n }
    else if k = "read_bytes".toList then do
      let n ← ioNum text; .ok { snap with read_disk_bytes := n }
    else if k = "write_bytes".toList then do
      let n ← ioNum text; .ok { snap with write_disk_bytes := n }
    else if k = "cancelled_write_bytes".toList then do
      let n ← ioNum text; .ok { snap with write_cancelled_bytes := n }
    else .ok snap
  | _ => .ok snap

/-- `Meter::read_io` from `scan.rs`, as a pure function of the
`/proc/self/io` text. -/
def read_io (snap : Snapshot) (text : Str) : Except Error Snapshot :=
  (linesOf text).foldlM applyIoLine snap

/-- The body of one sampling pass (`scan.rs` lines 30–35): uptime and idle
time, the process stat line, every registered thread's stat line, the
memory counters, then the IO counters, in the source's order, each failure
aborting with its typed error.  Returns the fully populated snapshot. -/
def scanFill (names : List (Pid × Str)) (inp : ScanInput) (snap : Snapshot) :
    Except Error Snapshot := do
  let utext ← match inp.uptime_text with
    | some t => Except.ok t
    | none => Except.error (Error.Uptime UptimeError.Io)
  let toks := splitWhitespace utext
  let secTok ← match toks.get? 0 with
    | some t => Except.ok t
    | none => Except.error (Error.Uptime UptimeError.BadFormat)
  let idleTok ← match toks.get? 1 with
    | some t => Except.ok t
    | none => Except.error (Error.Uptime UptimeError.BadFormat)
  let up ← (parse_uptime secTok).mapError Error.Uptime
  let idle ← (parse_uptime idleTok).mapError Error.Uptime
  let stext ← match inp.stat_text with
    | some t => Except.ok t
    | none => Except.error (Error.Stat StatError.Io)
  let proc ← (read_stat stext).mapError Error.Stat
  let threads ← readThreadStats inp names snap.threads
  let snap := { snap with
    uptime := up, idle_time := idle, process := proc, threads := threads }
  let snap ← match inp.status_text with
    | some t => (read_memory snap t).mapError Error.Status
    | none => Except.error (Error.Status StatusError.Io)
  let snap ← match inp.io_text with
    | some t => read_io snap t
    | none => Except.error (Error.IoStat IoStatError.Io)
  Except.ok snap

/-- `Meter::scan` from `scan.rs`: take the snapshot to fill — popping and
reusing the oldest when the store is at capacity, else a fresh one — stamp
the clocks, run the reads, and on full success update the peak trackers
and push the snapshot at the back.  The returned meter is the post-call
state whether or not the pass succeeded. -/
def Meter.scan (m : Meter) (inp : ScanInput) : Except Error Unit × Meter :=
  let popped := m.num_snapshots ≤ m.snapshots.length
  let snap0 := if popped then m.snapshots.headD dummySnapshot
               else Snapshot.new m.thread_names
  let rest := if popped then m.snapshots.tail else m.snapshots
  let m' := { m with snapshots := rest }
  let snap1 := { snap0 with timestamp := inp.timestamp, instant := inp.instant }
  match scanFill m.thread_names inp snap1 with
  | .error e => (.error e, m')
  | .ok snap =>
    let rss_peak := if m.memory_rss_peak < snap.memory_rss
                    then snap.memory_rss else m.memory_rss_peak
    let swap_peak := if m.memory_swap_peak < snap.memory_swap
                     then snap.memory_swap else m.memory_swap_peak
    let mOut := { m' with
      snapshots := rest ++ [snap],
      memory_rss_peak := rss_peak,
      memory_swap_peak := swap_peak }
    (.ok (), mOut)

/-- Run a sequence of `scan` calls, keeping the post-state of each whether
it succeeded or failed. -/
def applyScans (m : Meter) (inps : List ScanInput) : Meter :=
  inps.foldl (fun m inp => (m.scan inp).2) m

/-- A `std::time::Duration` value: whole seconds and nanoseconds. -/
structure MDuration where
  secs : Nat
  nanos : Nat
deriving DecidableEq

/-- `duration_from_ms` from `report.rs`. -/
def duration_from_ms (ms : Nat) : MDuration :=
  { secs := ms / 1000, nanos := (ms % 1000) * 1000000 }

/-- The `Report` structure from `lib.rs`; its `f32` fields are modelled as
exact rationals. -/
structure Report where
  timestamp : Nat
  duration : Nat
  start_time : Nat
  system_uptime : MDuration
  global_cpu_usage : ℚ
  process_cpu_usage : ℚ
  gross_cpu_usage : ℚ
  memory_rss : Nat
  memory_virtual : Nat
  memory_swap : Nat
  memory_rss_peak : Nat
  memory_virtual_peak : Nat
  memory_swap_peak : Nat
  disk_read : ℚ
  disk_write : ℚ
  disk_cancelled : ℚ
  io_read : ℚ
  io_write : ℚ
  io_read_ops : ℚ
  io_write_ops : ℚ
deriving DecidableEq

/-- `user_time + system_time + child_user_time + child_system_time` with
the source's left-associated 64-bit additions. -/
def grossTicks (t : ThreadInfo) : Nat :=
  add64 (add64 (add64 t.user_time t.system_time) t.child_user_time)
    t.child_system_time

/-- `Meter::report` from `report.rs`: `None` below two snapshots, else the
delta-based report over the two most recent snapshots, with the global CPU
percentage clamped below at zero. -/
def Meter.report (m : Meter) : Option Report :=
  if m.snapshots.length < 2 then none
  else
    let n := m.snapshots.length
    let last := m.snapshots.getD (n - 1) dummySnapshot
    let prev := m.snapshots.getD (n - 2) dummySnapshot
    let lpro := last.process
    let ppro := prev.process
    let centisecs : ℚ := (sub64 last.uptime prev.uptime : Nat)
    let secs : ℚ := centisecs / 100
    let cpu_usage0 : ℚ :=
      100 * (1 - (sub64 last.idle_time prev.idle_time : Nat) /
        (centisecs * (m.num_cpus : ℚ)))
    let cpu_usage := if cpu_usage0 < 0 then 0 else cpu_usage0
    some
      { timestamp := last.timestamp,
        duration := last.instant - prev.instant,
        start_time := m.start_time,
        system_uptime := duration_from_ms (mul64 last.uptime 10),
        global_cpu_usage := cpu_usage,
        process_cpu_usage := 100 *
          (sub64 (add64 lpro.user_time lpro.system_time)
            (add64 ppro.user_time ppro.system_time) : Nat) / centisecs,
        gross_cpu_usage := 100 *
          (sub64 (grossTicks lpro) (grossTicks ppro) : Nat) / centisecs,
        memory_rss := last.memory_rss,
        memory_virtual := last.memory_virtual,
        memory_swap := last.memory_swap,
        memory_rss_peak := m.memory_rss_peak,
        memory_virtual_peak := last.memory_virtual_peak,
        memory_swap_peak := m.memory_swap_peak,
        disk_read := (sub64 last.read_disk_bytes prev.read_disk_bytes : Nat) / secs,
        disk_write := (sub64 last.write_disk_bytes prev.write_disk_bytes : Nat) / secs,
        disk_cancelled :=
          (sub64 last.write_cancelled_bytes prev.write_cancelled_bytes : Nat) / secs,
        io_read := (sub64 last.read_bytes prev.read_bytes : Nat) / secs,
        io_write := (sub64 last.write_bytes prev.write_bytes : Nat) / secs,
        io_read_ops := (sub64 last.read_ops prev.read_ops : Nat) / secs,
        io_write_ops := (sub64 last.write_ops prev.write_ops : Nat) / secs }

/-- The `ThreadReport` structure from `lib.rs` (`f32` as exact rationals). -/
structure ThreadReport where
  cpu_usage : ℚ
  system_cpu : ℚ
  user_cpu : ℚ
deriving DecidableEq

/-- The materialized output of `ThreadReportIter` from `report.rs`: walk
the registry, silently skipping any id missing from the newest or the
previous snapshot, and for present ids yield the per-thread percentages
computed from the 64-bit tick deltas. -/
def threadReportEntries (registry : List (Pid × Str)) (last prev : Snapshot)
    (centisecs : ℚ) : List (Str × ThreadReport) :=
  registry.filterMap (fun e =>
    match last.threads.lookup e.1, prev.threads.lookup e.1 with
    | some lth, some pth =>
      let udelta := sub64 lth.user_time pth.user_time
      let sdelta := sub64 lth.system_time pth.system_time
      some (e.2,
        { cpu_usage := 100 * (add64 udelta sdelta : Nat) / centisecs,
          system_cpu := 100 * (sdelta : Nat) / centisecs,
          user_cpu := 100 * (udelta : Nat) / centisecs })
    | _, _ => none)

/-- `Meter::thread_report` from `report.rs`: `None` below two snapshots,
else the lazily produced per-thread sequence, materialized as a list. -/
def Meter.thread_report (m : Meter) : Option (List (Str × ThreadReport)) :=
  if m.snapshots.length < 2 then none
  else
    let n := m.snapshots.length
    let last := m.snapshots.getD (n - 1) dummySnapshot
    let prev := m.snapshots.getD (n - 2) dummySnapshot
    let centisecs : ℚ := (sub64 last.uptime prev.uptime : Nat)
    some (threadReportEntries m.thread_names last prev centisecs)

/-- A scan input every one of whose reads fails. -/
def cInpBad : ScanInput :=
  { timestamp := 0, instant := 0, uptime_text := none, stat_text := none,
    thread_stat := fun _ => none, status_text := none, io_text := none }

/-- A meter whose store is at its capacity of ten snapshots. -/
def cMeterFull : Meter :=
  { Meter.new 5 4 0 with snapshots := List.replicate 10 dummySnapshot }

/-- A scan input on which every read succeeds (no threads tracked). -/
def cInpOK : ScanInput :=
  { timestamp := 1, instant := 2,
    uptime_text := some "100.00 50.00".toList,
    stat_text := some "1 (x) S 4 5 6 7 8 9 10 11 12 13 14 15 16 17 18".toList,
    thread_stat := fun _ => none,
    status_text := some "VmRSS: 1024 kB".toList,
    io_text := some "rchar: 5".toList }

/-- Two distinguishable snapshots for concrete report tests. -/
def cSnapA : Snapshot := { dummySnapshot with uptime := 100, idle_time := 40 }

/-- The newer of the two concrete snapshots. -/
def cSnapB : Snapshot := { dummySnapshot with uptime := 300, idle_time := 140 }

/-- Newest snapshot for the thread-report witness: thread 1 sampled, thread
2 only present here (not in the previous snapshot). -/
def cThreadLast : Snapshot :=
  { dummySnapshot with threads :=
    [(1, { user_time := 24, system_time := 32,
           child_user_time := 0, child_system_time := 0 }),
     (2, ThreadInfo.new)] }

/-- Previous snapshot for the thread-report witness: only thread 1. -/
def cThreadPrev : Snapshot :=
  { dummySnapshot with threads :=
    [(1, { user_time := 20, system_time := 30,
           child_user_time := 0, child_system_time := 0 })] }

/-- A meter state from which `tid` has been fully purged: absent from the
registry and from every retained snapshot's per-thread map. -/
def tidFree (m : Meter) (tid : Pid) : Prop :=
  m.thread_names.lookup tid = none ∧
  ∀ s ∈ m.snapshots, s.threads.lookup tid = none

lemma isDigit_bounds {c : Char} (h : c.isDigit) : 48 ≤ c.toNat ∧ c.toNat ≤ 57 := by
  simp [Char.isDigit] at h
  unfold Char.toNat
  exact h

lemma isDigit_ne_of {c : Char} (h : c.isDigit) (d : Char) (hd : ¬ d.isDigit) : c ≠ d := by
  intro h'
  subst h'
  exact hd h

lemma digitsVal_single (c : Char) : digitsVal [c] = c.toNat - 48 := by
  simp [digitsVal]

lemma digitsVal_pair (c₁ c₂ : Char) :
    digitsVal [c₁, c₂] = (c₁.toNat - 48) * 10 + (c₂.toNat - 48) := by
  simp [digitsVal]

lemma parseU64_digits (s : Str) (hne : s ≠ []) (hd : s.all Char.isDigit)
    (hv : digitsVal s < U64) : parseU64 s = some (digitsVal s) := by
  obtain ⟨c, r, rfl⟩ : ∃ c r, s = c :: r := by
    cases s with
    | nil => exact absurd rfl hne
    | cons c r => exact ⟨c, r, rfl⟩
  have hc : c.isDigit := by
    simp [List.all_cons] at hd
    exact hd.1
  have hplus : ¬ ((c :: r).head? = some '+') := by
    simp only [List.head?_cons, Option.some.injEq]
    exact isDigit_ne_of hc '+' (by decide)
  simp only [parseU64, if_neg hplus]
  rw [if_pos ⟨hne, hd⟩, if_pos hv]

lemma findIdx?_append_hit (p : Char → Bool) (ds t : Str) (a : Char)
    (hds : ∀ c ∈ ds, p c = false) (ha : p a = true) :
    (ds ++ a :: t).findIdx? p = some ds.length := by
  induction ds with
  | nil => simp [List.findIdx?_cons, ha]
  | cons c ds ih =>
    have hc : p c = false := hds c (List.mem_cons_self c ds)
    have ih' := ih (fun x hx => hds x (List.mem_cons_of_mem c hx))
    simp [List.findIdx?_cons, hc, ih']

lemma all_digits_not_dot {ds : Str} (hd : ds.all Char.isDigit) :
    ∀ c ∈ ds, (decide (c = '.')) = false := by
  intro c hc
  have hcd : c.isDigit := by
    rw [List.all_eq_true] at hd
    exact hd c hc
  simp [isDigit_ne_of hcd '.' (by decide)]

lemma parse_uptime_one (ds : Str) (c : Char) (h2 : 2 ≤ ds.length)
    (hd : ds.all Char.isDigit) (hv : digitsVal ds * 100 + 90 < U64)
    (hc : c.isDigit) :
    parse_uptime (ds ++ ['.', c]) = .ok (digitsVal ds * 100 + (c.toNat - 48) * 10) := by
  have hlen : (ds ++ ['.', c]).length = ds.length + 2 := by simp
  have hfind : (ds ++ ['.', c]).findIdx? (fun x => decide (x = '.')) = some ds.length := by
    have h := findIdx?_append_hit (fun x => decide (x = '.')) ds [c] '.'
      (all_digits_not_dot hd) (by decide)
    simpa using h
  have hdsne : ds ≠ [] := by
    intro h
    subst h
    simp at h2
  have hdval : digitsVal ds < U64 := by omega
  have hb := isDigit_bounds hc
  have hcval : digitsVal [c] < U64 := by
    rw [digitsVal_single]
    have hu : (100 : Nat) ≤ U64 := by norm_num [U64]
    omega
  have hds' := parseU64_digits ds hdsne hd hdval
  have hc' := parseU64_digits [c] (by simp) (by simp [hc]) hcval
  have hmod : (digitsVal ds * 100 + (c.toNat - 48) * 10) % U64
      = digitsVal ds * 100 + (c.toNat - 48) * 10 := by
    apply Nat.mod_eq_of_lt
    omega
  unfold parse_uptime
  rw [if_neg (by omega : ¬ (ds ++ ['.', c]).length ≤ 3)]
  rw [hfind]
  dsimp only
  rw [List.take_left, List.drop_left]
  norm_num
  rw [parseU64Up, hds', parseU64Up, hc']
  show Except.ok ((digitsVal ds * 100 + (digitsVal [c]) * 10) % U64) = _
  rw [digitsVal_single, hmod]

lemma parse_uptime_two (ds : Str) (c₁ c₂ : Char) (h1 : 1 ≤ ds.length)
    (hd : ds.all Char.isDigit) (hv : digitsVal ds * 100 + 99 < U64)
    (hc₁ : c₁.isDigit) (hc₂ : c₂.isDigit) :
    parse_uptime (ds ++ ['.', c₁, c₂])
      = .ok (digitsVal ds * 100 + ((c₁.toNat - 48) * 10 + (c₂.toNat - 48))) := by
  have hlen : (ds ++ ['.', c₁, c₂]).length = ds.length + 3 := by simp
  have hfind : (ds ++ ['.', c₁, c₂]).findIdx? (fun x => decide (x = '.'))
      = some ds.length := by
    have h := findIdx?_append_hit (fun x => decide (x = '.')) ds [c₁, c₂] '.'
      (all_digits_not_dot hd) (by decide)
    simpa using h
  have hdsne : ds ≠ [] := by
    intro h
    subst h
    simp at h1
  have hdval : digitsVal ds < U64 := by omega
  have hb₁ := isDigit_bounds hc₁
  have hb₂ := isDigit_bounds hc₂
  have hu : (100 : Nat) ≤ U64 := by norm_num [U64]
  have hcval : digitsVal [c₁, c₂] < U64 := by
    rw [digitsVal_pair]
    omega
  have hds' := parseU64_digits ds hdsne hd hdval
  have hc' := parseU64_digits [c₁, c₂] (by simp) (by simp [hc₁, hc₂]) hcval
  have hmod : (digitsVal ds * 100 + ((c₁.toNat - 48) * 10 + (c₂.toNat - 48))) % U64
      = digitsVal ds * 100 + ((c₁.toNat - 48) * 10 + (c₂.toNat - 48)) := by
    apply Nat.mod_eq_of_lt
    omega
  unfold parse_uptime
  rw [if_neg (by omega : ¬ (ds ++ ['.', c₁, c₂]).length ≤ 3)]
  rw [hfind]
  dsimp only
  rw [List.take_left, List.drop_left]
  norm_num
  rw [parseU64Up, hds', parseU64Up, hc']
  show Except.ok ((digitsVal ds * 100 + digitsVal [c₁, c₂]) % U64) = _
  rw [digitsVal_pair, hmod]

/-- C3 counterexample: the claim demands `parse_uptime "4.0" = 400`, but the
source rejects every input of length at most 3 as `BadFormat`; it likewise
demands `integer*100 + dd` for an integer part that overflows `u64`, where
the source fails with `ParseInt`. -/
theorem C3_counterexample :
    parse_uptime "4.0".toList ≠ .ok (4 * 100 + 0 * 10) ∧
    parse_uptime "4.0".toList = .error .BadFormat ∧
    parse_uptime "18446744073709551616.07".toList
      ≠ .ok (18446744073709551616 * 100 + 7) ∧
    parse_uptime "18446744073709551616.07".toList = .error .ParseInt := by
  refine ⟨by decide, by decide, ?_, by decide⟩
  intro h
  have h' : parse_uptime "18446744073709551616.07".toList = .error .ParseInt := by decide
  rw [h'] at h
  exact absurd h (by decide)

/-- C3 (amended): for inputs `"<integer>.<d>"` whose integer part has at
least two digits, and inputs `"<integer>.<dd>"`, with the resulting value
fitting in `u64`, `parse_uptime` returns `integer*100 + d*10`
(respectively `integer*100 + dd`); in particular
`parse_uptime "1927830.69" = 192783069` and `parse_uptime "4780.0" = 478000`. -/
theorem C3_parse_uptime :
    (∀ (ds : Str) (c : Char), 2 ≤ ds.length → ds.all Char.isDigit →
      digitsVal ds * 100 + 90 < U64 → c.isDigit →
      parse_uptime (ds ++ ['.', c])
        = .ok (digitsVal ds * 100 + (c.toNat - 48) * 10)) ∧
    (∀ (ds : Str) (c₁ c₂ : Char), 1 ≤ ds.length → ds.all Char.isDigit →
      digitsVal ds * 100 + 99 < U64 → c₁.isDigit → c₂.isDigit →
      parse_uptime (ds ++ ['.', c₁, c₂])
        = .ok (digitsVal ds * 100 + ((c₁.toNat - 48) * 10 + (c₂.toNat - 48)))) ∧
    parse_uptime "1927830.69".toList = .ok 192783069 ∧
    parse_uptime "4780.0".toList = .ok 478000 :=
  ⟨parse_uptime_one, parse_uptime_two, by decide, by decide⟩

/-- C3 witness: the amended theorem applied at the concrete inputs
`"12.5"` and `"3.14"`. -/
theorem C3_witness :
    parse_uptime "12.5".toList = .ok 1250 ∧
    parse_uptime "3.14".toList = .ok 314 :=
  ⟨(C3_parse_uptime.1 ['1', '2'] '5' (by decide) (by decide) (by decide)
      (by decide)).trans (by decide),
   (C3_parse_uptime.2.1 ['3'] '1' '4' (by decide) (by decide) (by decide)
      (by decide) (by decide)).trans (by decide)⟩

/-- C6: with unit exactly `"kB"` the status memory parser scales the value
by 1024 (exactly, whenever the product fits in `u64`, as all physical
memory sizes do); `"VmRSS: 1024 kB"` fed through `read_memory` yields a
resident-memory counter of 1048576 bytes; and a second token differing
from `"kB"` (e.g. `"mB"`) fails with `BadUnit`. -/
theorem C6_parse_memory :
    (∀ (s ds u : Str) (rest : List Str) (v : Nat),
      splitWhitespace s = ds :: u :: rest → parseU64 ds = some v →
      u = "kB".toList → v * 1024 < U64 →
      parse_memory s = .ok (v * 1024)) ∧
    (∀ (s ds u : Str) (rest : List Str) (v : Nat),
      splitWhitespace s = ds :: u :: rest → parseU64 ds = some v →
      u ≠ "kB".toList →
      parse_memory s = .error .BadUnit) ∧
    (∃ s', read_memory (Snapshot.new []) "VmRSS: 1024 kB".toList = .ok s' ∧
      s'.memory_rss = 1048576) ∧
    parse_memory " 1024 mB".toList = .error .BadUnit := by
  refine ⟨?_, ?_,
    ⟨{ Snapshot.new [] with memory_rss := 1048576 }, by decide, by decide⟩,
    by decide⟩
  · intro s ds u rest v hsplit hv hu hlt
    unfold parse_memory
    rw [hsplit]
    dsimp only
    rw [hv]
    subst hu
    simp only [List.head?_cons, if_pos rfl, if_true]
    simp [mul64, Nat.mod_eq_of_lt hlt]
  · intro s ds u rest v hsplit hv hu
    unfold parse_memory
    rw [hsplit]
    dsimp only
    rw [hv]
    simp only [List.head?_cons]
    rw [if_neg hu]

/-- C6 witness: the general `kB` branch applied at `" 2048 kB"`. -/
theorem C6_witness : parse_memory " 2048 kB".toList = .ok 2097152 :=
  C6_parse_memory.1 " 2048 kB".toList "2048".toList "kB".toList [] 2048
    (by decide) (by decide) (by decide) (by decide)

/-- C10: a status memory value consisting of a parseable integer with no
unit token after it at all fails with the same `BadUnit` error as a wrong
unit; in particular `parse_memory "1024"` is `BadUnit`. -/
theorem C10_parse_memory_no_unit :
    (∀ (s ds : Str) (v : Nat),
      splitWhitespace s = [ds] → parseU64 ds = some v →
      parse_memory s = .error .BadUnit) ∧
    parse_memory "1024".toList = .error .BadUnit := by
  refine ⟨?_, by decide⟩
  intro s ds v hsplit hv
  unfold parse_memory
  rw [hsplit]
  dsimp only
  rw [hv]
  simp

/-- C10 witness: the general no-unit branch applied at `"  77  "`. -/
theorem C10_witness : parse_memory "  77  ".toList = .error .BadUnit :=
  C10_parse_memory_no_unit.1 "  77  ".toList "77".toList 77 (by decide) (by decide)

lemma exceptBind_ok {ε α β : Type} (a : α) (f : α → Except ε β) :
    (Except.ok a : Except ε α) >>= f = f a := rfl

lemma exceptBind_err {ε α β : Type} (e : ε) (f : α → Except ε β) :
    (Except.error e : Except ε α) >>= f = .error e := rfl

lemma statFields_ok_iff (fs : List Str) (info : ThreadInfo) :
    statFields fs = .ok info ↔
      (fs[11]?.bind parseU64 = some info.user_time ∧
       fs[12]?.bind parseU64 = some info.system_time ∧
       fs[13]?.bind parseU64 = some info.child_user_time ∧
       fs[14]?.bind parseU64 = some info.child_system_time) := by
  rcases h11 : fs[11]? with _ | t12
  · simp [statFields, expectTok, h11, exceptBind_err]
  rcases hp11 : parseU64 t12 with _ | v1
  · simp [statFields, expectTok, expectNum, h11, hp11, exceptBind_ok, exceptBind_err]
  rcases h12 : fs[12]? with _ | t13
  · simp [statFields, expectTok, expectNum, h11, hp11, h12, exceptBind_ok, exceptBind_err]
  rcases hp12 : parseU64 t13 with _ | v2
  · simp [statFields, expectTok, expectNum, h11, hp11, h12, hp12, exceptBind_ok, exceptBind_err]
  rcases h13 : fs[13]? with _ | t14
  · simp [statFields, expectTok, expectNum, h11, hp11, h12, hp12, h13, exceptBind_ok, exceptBind_err]
  rcases hp13 : parseU64 t14 with _ | v3
  · simp [statFields, expectTok, expectNum, h11, hp11, h12, hp12, h13, hp13,
      exceptBind_ok, exceptBind_err]
  rcases h14 : fs[14]? with _ | t15
  · simp [statFields, expectTok, expectNum, h11, hp11, h12, hp12, h13, hp13, h14,
      exceptBind_ok, exceptBind_err]
  rcases hp14 : parseU64 t15 with _ | v4
  · simp [statFields, expectTok, expectNum, h11, hp11, h12, hp12, h13, hp13, h14, hp14,
      exceptBind_ok, exceptBind_err]
  · simp only [statFields, expectTok, expectNum, h11, hp11, h12, hp12, h13, hp13, h14, hp14,
      exceptBind_ok, exceptBind_err, Option.some_bind, Except.ok.injEq, Option.some.injEq]
    constructor
    · intro h
      subst h
      simp
    · rintro ⟨ha, hb, hc, hd⟩
      cases info
      simp_all

lemma rfindIdx_eq_none {c : Char} {s : Str} (h : ∀ x ∈ s, x ≠ c) :
    rfindIdx c s = none := by
  induction s with
  | nil => rfl
  | cons x xs ih =>
    have hx : x ≠ c := h x (List.mem_cons_self x xs)
    have ih' := ih (fun y hy => h y (List.mem_cons_of_mem x hy))
    simp [rfindIdx, ih', hx]

lemma rfindIdx_append (pre rest : Str) (h : ∀ x ∈ rest, x ≠ ')') :
    rfindIdx ')' (pre ++ ')' :: rest) = some pre.length := by
  induction pre with
  | nil => simp [rfindIdx, rfindIdx_eq_none h]
  | cons x pre ih => simp [rfindIdx, ih]

lemma drop_after_paren (pre rest : Str) :
    (pre ++ ')' :: rest).drop (pre.length + 1) = rest := by
  have h : pre ++ ')' :: rest = (pre ++ [')']) ++ rest := by simp
  have hl : (pre ++ [')']).length = pre.length + 1 := by simp
  rw [h, ← hl, List.drop_left]

/-- C7: `read_stat` tokenizes only the whitespace-separated fields after
the last `')'` (so the text before it, which may contain parentheses and
whitespace, is irrelevant); it succeeds exactly when fields 12–15
(1-indexed) exist and parse as `u64`, assigning them to user, system,
child-user and child-system ticks respectively; too few fields or a
non-integer field among them fail with an error. -/
theorem C7_read_stat :
    (∀ (pre₁ pre₂ rest : Str), (∀ x ∈ rest, x ≠ ')') →
      read_stat (pre₁ ++ ')' :: rest) = statFields (splitWhitespace rest) ∧
      read_stat (pre₁ ++ ')' :: rest) = read_stat (pre₂ ++ ')' :: rest)) ∧
    (∀ (fs : List Str) (info : ThreadInfo), statFields fs = .ok info ↔
      (fs[11]?.bind parseU64 = some info.user_time ∧
       fs[12]?.bind parseU64 = some info.system_time ∧
       fs[13]?.bind parseU64 = some info.child_user_time ∧
       fs[14]?.bind parseU64 = some info.child_system_time)) ∧
    (∀ fs : List Str, fs.length < 15 → ∃ e, statFields fs = .error e) ∧
    (∀ (fs : List Str) (i : Nat) (t : Str), 11 ≤ i → i ≤ 14 →
      fs[i]? = some t → parseU64 t = none → ∃ e, statFields fs = .error e) := by
  have hmain : ∀ (pre rest : Str), (∀ x ∈ rest, x ≠ ')') →
      read_stat (pre ++ ')' :: rest) = statFields (splitWhitespace rest) := by
    intro pre rest h
    unfold read_stat
    rw [rfindIdx_append pre rest h]
    dsimp only
    rw [drop_after_paren]
  refine ⟨?_, statFields_ok_iff, ?_, ?_⟩
  · intro pre₁ pre₂ rest h
    exact ⟨hmain pre₁ rest h, (hmain pre₁ rest h).trans (hmain pre₂ rest h).symm⟩
  · intro fs hlen
    have h14 : fs[14]? = none := by
      rw [List.getElem?_eq_none_iff]
      omega
    cases hsf : statFields fs with
    | error e => exact ⟨e, rfl⟩
    | ok info =>
      have h := (statFields_ok_iff fs info).mp hsf
      rw [h14] at h
      simp at h
  · intro fs i t h11 h14 ht hp
    cases hsf : statFields fs with
    | error e => exact ⟨e, rfl⟩
    | ok info =>
      have h := (statFields_ok_iff fs info).mp hsf
      interval_cases i <;>
        [rw [ht] at h; rw [ht] at h; rw [ht] at h; rw [ht] at h] <;>
        simp [hp] at h

/-- C7 witness: the prefix-independence and field-extraction parts applied
to a concrete stat line whose name field contains `')'` and spaces. -/
theorem C7_witness :
    read_stat "8 (a b) x) R 3 4 5 6 7 8 9 10 11 12 21 22 23 24 25".toList
      = .ok { user_time := 21, system_time := 22,
              child_user_time := 23, child_system_time := 24 } :=
  ((C7_read_stat.1 "8 (a b) x".toList "ignored".toList
      " R 3 4 5 6 7 8 9 10 11 12 21 22 23 24 25".toList
      (by decide)).1).trans (by decide)

lemma scan_error_state (m : Meter) (inp : ScanInput) (e : Error)
    (h : (m.scan inp).1 = .error e) :
    (m.scan inp).2 = { m with snapshots :=
      if m.num_snapshots ≤ m.snapshots.length then m.snapshots.tail
      else m.snapshots } := by
  unfold Meter.scan at h ⊢
  by_cases hp : m.num_snapshots ≤ m.snapshots.length
  · simp only [hp, if_true] at h ⊢
    split at h
    · rfl
    · simp at h
  · simp only [hp, if_false] at h ⊢
    split at h
    · rfl
    · simp at h

/-- C1 counterexample: on a meter whose store is at full capacity, a scan
whose very first read fails still removes the oldest snapshot — the store
shrinks from ten snapshots to nine, so it is not left unchanged. -/
theorem C1_counterexample :
    (cMeterFull.scan cInpBad).1 = .error (.Uptime .Io) ∧
    cMeterFull.snapshots.length = 10 ∧
    (cMeterFull.scan cInpBad).2.snapshots.length = 9 ∧
    (cMeterFull.scan cInpBad).2.snapshots ≠ cMeterFull.snapshots := by
  refine ⟨rfl, rfl, rfl, ?_⟩
  intro h
  exact absurd (congrArg List.length h) (by decide)

/-- C1 (amended): a failing scan leaves the store unchanged — and, with it,
the whole meter state — whenever the store was below capacity; when the
store was at capacity, the failing scan removes exactly the oldest (front)
snapshot, leaving the remaining snapshots in their original order and
every other meter field unchanged.  In neither case is any partial
snapshot committed. -/
theorem C1_scan_failure (m : Meter) (inp : ScanInput) (e : Error)
    (h : (m.scan inp).1 = .error e) :
    (m.snapshots.length < m.num_snapshots → (m.scan inp).2 = m) ∧
    (m.num_snapshots ≤ m.snapshots.length →
      (m.scan inp).2 = { m with snapshots := m.snapshots.tail }) := by
  have hs := scan_error_state m inp e h
  constructor
  · intro hlt
    rw [hs, if_neg (by omega)]
  · intro hge
    rw [hs, if_pos hge]

/-- C1 witness: a failing scan on a below-capacity meter returns it intact. -/
theorem C1_witness : ((Meter.new 5 4 0).scan cInpBad).2 = Meter.new 5 4 0 :=
  (C1_scan_failure (Meter.new 5 4 0) cInpBad (.Uptime .Io) (by decide)).1
    (by decide)

lemma scan_length_le (m : Meter) (inp : ScanInput) (h10 : m.num_snapshots = 10)
    (hlen : m.snapshots.length ≤ 10) :
    (m.scan inp).2.snapshots.length ≤ 10 ∧ (m.scan inp).2.num_snapshots = 10 := by
  unfold Meter.scan
  by_cases hp : m.num_snapshots ≤ m.snapshots.length
  · simp only [hp, if_true]
    split
    · refine ⟨?_, h10⟩
      simp [List.length_tail]
      omega
    · refine ⟨?_, h10⟩
      simp [List.length_tail]
      omega
  · simp only [hp, if_false]
    split
    · exact ⟨hlen, h10⟩
    · refine ⟨?_, h10⟩
      simp
      omega

lemma applyScans_length (m : Meter) (inps : List ScanInput)
    (h10 : m.num_snapshots = 10) (hlen : m.snapshots.length ≤ 10) :
    (applyScans m inps).snapshots.length ≤ 10 := by
  induction inps generalizing m with
  | nil => exact hlen
  | cons i is ih =>
    have h := scan_length_le m i h10 hlen
    exact ih (m.scan i).2 h.2 h.1

/-- C2: starting from a freshly constructed meter, no sequence of scans —
successful or failed — ever grows the store beyond its capacity of ten;
and a successful scan on a full store removes exactly the oldest (front)
snapshot and commits at the back a snapshot built by refilling that very
popped snapshot (allocation reuse). -/
theorem C2_store_bounded_fifo :
    (∀ (si nc st : Nat) (inps : List ScanInput),
      (applyScans (Meter.new si nc st) inps).snapshots.length ≤ 10) ∧
    (∀ (m : Meter) (inp : ScanInput), m.num_snapshots ≤ m.snapshots.length →
      (m.scan inp).1 = .ok () →
      ∃ snap,
        scanFill m.thread_names inp
          { m.snapshots.headD dummySnapshot with
            timestamp := inp.timestamp, instant := inp.instant } = .ok snap ∧
        (m.scan inp).2.snapshots = m.snapshots.tail ++ [snap]) := by
  constructor
  · intro si nc st inps
    exact applyScans_length (Meter.new si nc st) inps rfl (by simp [Meter.new])
  · intro m inp hfull h
    unfold Meter.scan at h ⊢
    simp only [hfull, if_true] at h ⊢
    split at h
    · simp at h
    · next snap heq => exact ⟨snap, heq, rfl⟩

/-- C2 witness: the FIFO-reuse part applied to a concrete full meter and a
concrete successful scan input. -/
theorem C2_witness :
    ∃ snap,
      scanFill cMeterFull.thread_names cInpOK
        { cMeterFull.snapshots.headD dummySnapshot with
          timestamp := cInpOK.timestamp, instant := cInpOK.instant } = .ok snap ∧
      (cMeterFull.scan cInpOK).2.snapshots = cMeterFull.snapshots.tail ++ [snap] :=
  C2_store_bounded_fifo.2 cMeterFull cInpOK (by decide) (by decide)

lemma lastTwo_getD (pre : List Snapshot) (p l d : Snapshot) :
    (pre ++ [p, l]).getD (pre.length + 1) d = l ∧
    (pre ++ [p, l]).getD pre.length d = p := by
  constructor
  · rw [List.getD_eq_getElem?_getD, List.getElem?_append_right (by omega)]
    simp
  · rw [List.getD_eq_getElem?_getD, List.getElem?_append_right (by omega)]
    simp

lemma report_lastTwo (m₁ m₂ : Meter) (pre₁ pre₂ : List Snapshot) (p l : Snapshot)
    (hs₁ : m₁.snapshots = pre₁ ++ [p, l]) (hs₂ : m₂.snapshots = pre₂ ++ [p, l])
    (hcpu : m₁.num_cpus = m₂.num_cpus) (hst : m₁.start_time = m₂.start_time)
    (hrss : m₁.memory_rss_peak = m₂.memory_rss_peak)
    (hswap : m₁.memory_swap_peak = m₂.memory_swap_peak) :
    m₁.report = m₂.report := by
  unfold Meter.report
  rw [hs₁, hs₂]
  have hl₁ : (pre₁ ++ [p, l]).length = pre₁.length + 2 := by simp
  have hl₂ : (pre₂ ++ [p, l]).length = pre₂.length + 2 := by simp
  rw [if_neg (by simp), if_neg (by simp)]
  rw [hl₁, hl₂]
  dsimp only
  rw [show pre₁.length + 2 - 1 = pre₁.length + 1 from rfl,
      show pre₁.length + 2 - 2 = pre₁.length from rfl,
      show pre₂.length + 2 - 1 = pre₂.length + 1 from rfl,
      show pre₂.length + 2 - 2 = pre₂.length from rfl]
  rw [(lastTwo_getD pre₁ p l dummySnapshot).1, (lastTwo_getD pre₁ p l dummySnapshot).2,
      (lastTwo_getD pre₂ p l dummySnapshot).1, (lastTwo_getD pre₂ p l dummySnapshot).2]
  rw [hcpu, hst, hrss, hswap]

lemma thread_report_lastTwo (m₁ m₂ : Meter) (pre₁ pre₂ : List Snapshot)
    (p l : Snapshot)
    (hs₁ : m₁.snapshots = pre₁ ++ [p, l]) (hs₂ : m₂.snapshots = pre₂ ++ [p, l])
    (hnames : m₁.thread_names = m₂.thread_names) :
    m₁.thread_report = m₂.thread_report := by
  unfold Meter.thread_report
  rw [hs₁, hs₂]
  have hl₁ : (pre₁ ++ [p, l]).length = pre₁.length + 2 := by simp
  have hl₂ : (pre₂ ++ [p, l]).length = pre₂.length + 2 := by simp
  rw [if_neg (by simp), if_neg (by simp)]
  rw [hl₁, hl₂]
  dsimp only
  rw [show pre₁.length + 2 - 1 = pre₁.length + 1 from rfl,
      show pre₁.length + 2 - 2 = pre₁.length from rfl,
      show pre₂.length + 2 - 1 = pre₂.length + 1 from rfl,
      show pre₂.length + 2 - 2 = pre₂.length from rfl]
  rw [(lastTwo_getD pre₁ p l dummySnapshot).1, (lastTwo_getD pre₁ p l dummySnapshot).2,
      (lastTwo_getD pre₂ p l dummySnapshot).1, (lastTwo_getD pre₂ p l dummySnapshot).2]
  rw [hnames]

/-- C4: `report` and `thread_report` return `none` exactly when the store
holds fewer than two snapshots, hence a value whenever it holds two or
more; and whenever two meters agree on the two most recent snapshots (and
on the non-store fields each report reads: CPU count, start time and the
peak trackers for `report`, the registry for `thread_report`), their
reports coincide — older snapshots never influence the result. -/
theorem C4_report_two_snapshots :
    (∀ m : Meter, (m.report = none ↔ m.snapshots.length < 2) ∧
      (m.thread_report = none ↔ m.snapshots.length < 2)) ∧
    (∀ (m₁ m₂ : Meter) (pre₁ pre₂ : List Snapshot) (p l : Snapshot),
      m₁.snapshots = pre₁ ++ [p, l] → m₂.snapshots = pre₂ ++ [p, l] →
      m₁.num_cpus = m₂.num_cpus → m₁.start_time = m₂.start_time →
      m₁.memory_rss_peak = m₂.memory_rss_peak →
      m₁.memory_swap_peak = m₂.memory_swap_peak →
      m₁.thread_names = m₂.thread_names →
      m₁.report = m₂.report ∧ m₁.thread_report = m₂.thread_report) := by
  constructor
  · intro m
    constructor
    · unfold Meter.report
      split
      · simp_all
      · simp_all
    · unfold Meter.thread_report
      split
      · simp_all
      · simp_all
  · intro m₁ m₂ pre₁ pre₂ p l hs₁ hs₂ hcpu hst hrss hswap hnames
    exact ⟨report_lastTwo m₁ m₂ pre₁ pre₂ p l hs₁ hs₂ hcpu hst hrss hswap,
           thread_report_lastTwo m₁ m₂ pre₁ pre₂ p l hs₁ hs₂ hnames⟩

/-- C4 witness: a meter with exactly the last two snapshots and one with an
extra older snapshot produce identical reports. -/
theorem C4_witness :
    ({ Meter.new 1 2 3 with snapshots := [cSnapA, cSnapB] } : Meter).report
      = ({ Meter.new 1 2 3 with
           snapshots := [dummySnapshot, cSnapA, cSnapB] } : Meter).report :=
  (C4_report_two_snapshots.2
    { Meter.new 1 2 3 with snapshots := [cSnapA, cSnapB] }
    { Meter.new 1 2 3 with snapshots := [dummySnapshot, cSnapA, cSnapB] }
    [] [dummySnapshot] cSnapA cSnapB
    rfl rfl rfl rfl rfl rfl rfl).1

lemma sub64_of_le {a b : Nat} (hba : b ≤ a) (ha : a < U64) : sub64 a b = a - b := by
  unfold sub64
  have h : a + U64 - b = (a - b) + U64 := by omega
  rw [h, Nat.add_mod_right]
  exact Nat.mod_eq_of_lt (by omega)

lemma sub64_of_lt {a b : Nat} (hab : a < b) (hb : b < U64) :
    sub64 a b = U64 - (b - a) := by
  unfold sub64
  have h : a + U64 - b = U64 - (b - a) := by omega
  rw [h]
  exact Nat.mod_eq_of_lt (by omega)

lemma ite_neg_eq_max (q : ℚ) : (if q < 0 then 0 else q) = max 0 q := by
  split
  · next h => rw [max_eq_left (le_of_lt h)]
  · next h => rw [max_eq_right (not_lt.mp h)]

lemma report_eval (m : Meter) (pre : List Snapshot) (p l : Snapshot)
    (hs : m.snapshots = pre ++ [p, l]) :
    m.report = some
      { timestamp := l.timestamp,
        duration := l.instant - p.instant,
        start_time := m.start_time,
        system_uptime := duration_from_ms (mul64 l.uptime 10),
        global_cpu_usage :=
          (if (100 * (1 - (sub64 l.idle_time p.idle_time : Nat) /
              ((sub64 l.uptime p.uptime : Nat) * (m.num_cpus : ℚ))) : ℚ) < 0
           then 0
           else 100 * (1 - (sub64 l.idle_time p.idle_time : Nat) /
              ((sub64 l.uptime p.uptime : Nat) * (m.num_cpus : ℚ)))),
        process_cpu_usage := 100 *
          (sub64 (add64 l.process.user_time l.process.system_time)
            (add64 p.process.user_time p.process.system_time) : Nat) /
          (sub64 l.uptime p.uptime : Nat),
        gross_cpu_usage := 100 *
          (sub64 (grossTicks l.process) (grossTicks p.process) : Nat) /
          (sub64 l.uptime p.uptime : Nat),
        memory_rss := l.memory_rss,
        memory_virtual := l.memory_virtual,
        memory_swap := l.memory_swap,
        memory_rss_peak := m.memory_rss_peak,
        memory_virtual_peak := l.memory_virtual_peak,
        memory_swap_peak := m.memory_swap_peak,
        disk_read := (sub64 l.read_disk_bytes p.read_disk_bytes : Nat) /
          ((sub64 l.uptime p.uptime : Nat) / 100),
        disk_write := (sub64 l.write_disk_bytes p.write_disk_bytes : Nat) /
          ((sub64 l.uptime p.uptime : Nat) / 100),
        disk_cancelled := (sub64 l.write_cancelled_bytes p.write_cancelled_bytes : Nat) /
          ((sub64 l.uptime p.uptime : Nat) / 100),
        io_read := (sub64 l.read_bytes p.read_bytes : Nat) /
          ((sub64 l.uptime p.uptime : Nat) / 100),
        io_write := (sub64 l.write_bytes p.write_bytes : Nat) /
          ((sub64 l.uptime p.uptime : Nat) / 100),
        io_read_ops := (sub64 l.read_ops p.read_ops : Nat) /
          ((sub64 l.uptime p.uptime : Nat) / 100),
        io_write_ops := (sub64 l.write_ops p.write_ops : Nat) /
          ((sub64 l.uptime p.uptime : Nat) / 100) } := by
  unfold Meter.report
  rw [hs]
  have hl : (pre ++ [p, l]).length = pre.length + 2 := by simp
  rw [if_neg (by simp)]
  rw [hl]
  dsimp only
  rw [show pre.length + 2 - 1 = pre.length + 1 from rfl,
      show pre.length + 2 - 2 = pre.length from rfl]
  rw [(lastTwo_getD pre p l dummySnapshot).1, (lastTwo_getD pre p l dummySnapshot).2]

/-- C5: for the two most recent snapshots with a positive uptime delta, the
global CPU usage equals the formula `100 * (1 - Δidle / (Δcs * cpu_count))`
clamped below at zero (with `Δidle` the source's 64-bit idle-time delta,
which coincides with the true delta whenever idle time is monotone), and it
is never negative — in particular, when the idle counter decreases between
the snapshots (so the wrapped delta is huge and the raw formula goes
negative), the clamp forces the reported value to exactly zero. -/
theorem C5_global_cpu (m : Meter) (pre : List Snapshot) (p l : Snapshot)
    (hs : m.snapshots = pre ++ [p, l])
    (hup : p.uptime < l.uptime) (hu64 : l.uptime < U64) :
    ∃ r, m.report = some r ∧
      0 ≤ r.global_cpu_usage ∧
      r.global_cpu_usage = max 0 (100 * (1 -
        ((sub64 l.idle_time p.idle_time : Nat) : ℚ) /
        (((l.uptime - p.uptime : Nat) : ℚ) * (m.num_cpus : ℚ)))) ∧
      (p.idle_time ≤ l.idle_time → l.idle_time < U64 →
        r.global_cpu_usage = max 0 (100 * (1 -
          ((l.idle_time - p.idle_time : Nat) : ℚ) /
          (((l.uptime - p.uptime : Nat) : ℚ) * (m.num_cpus : ℚ))))) ∧
      (l.idle_time < p.idle_time → p.idle_time < U64 → 0 < m.num_cpus →
        (l.uptime - p.uptime) * m.num_cpus + (p.idle_time - l.idle_time) ≤ U64 →
        r.global_cpu_usage = 0) := by
  have hrep := report_eval m pre p l hs
  have hcs : sub64 l.uptime p.uptime = l.uptime - p.uptime :=
    sub64_of_le (le_of_lt hup) hu64
  refine ⟨_, hrep, ?_, ?_, ?_, ?_⟩
  · dsimp only
    split
    · exact le_refl 0
    · next h => exact not_lt.mp h
  · dsimp only
    rw [hcs, ite_neg_eq_max]
  · intro hidle hi64
    dsimp only
    rw [hcs, sub64_of_le hidle hi64, ite_neg_eq_max]
  · intro hdec hp64 hn hbound
    dsimp only
    rw [hcs, sub64_of_lt hdec hp64]
    have hcspos : (0 : ℚ) < ((l.uptime - p.uptime : Nat) : ℚ) * (m.num_cpus : ℚ) := by
      have h1 : (0 : ℚ) < ((l.uptime - p.uptime : Nat) : ℚ) := by
        rw [show ((0 : ℚ) = ((0 : Nat) : ℚ)) from rfl]
        exact Nat.cast_lt.mpr (by omega)
      have h2 : (0 : ℚ) < (m.num_cpus : ℚ) := by
        rw [show ((0 : ℚ) = ((0 : Nat) : ℚ)) from rfl]
        exact Nat.cast_lt.mpr hn
      exact mul_pos h1 h2
    have hge : ((l.uptime - p.uptime : Nat) : ℚ) * (m.num_cpus : ℚ)
        ≤ ((U64 - (p.idle_time - l.idle_time) : Nat) : ℚ) := by
      rw [show ((l.uptime - p.uptime : Nat) : ℚ) * (m.num_cpus : ℚ)
          = (((l.uptime - p.uptime) * m.num_cpus : Nat) : ℚ) by push_cast; ring]
      exact Nat.cast_le.mpr (by omega)
    have hX : (1 : ℚ) ≤ ((U64 - (p.idle_time - l.idle_time) : Nat) : ℚ) /
        (((l.uptime - p.uptime : Nat) : ℚ) * (m.num_cpus : ℚ)) :=
      (one_le_div hcspos).mpr hge
    have hraw : (100 * (1 - ((U64 - (p.idle_time - l.idle_time) : Nat) : ℚ) /
        (((l.uptime - p.uptime : Nat) : ℚ) * (m.num_cpus : ℚ))) : ℚ) ≤ 0 := by
      nlinarith
    split
    · rfl
    · next h => linarith [not_lt.mp h]

/-- C5 witness: the clamp characterization applied to a concrete meter
with uptime delta 200 centiseconds, idle delta 100 and two CPUs. -/
theorem C5_witness :
    ∃ r, ({ Meter.new 1 2 3 with snapshots := [cSnapA, cSnapB] } : Meter).report
        = some r ∧
      0 ≤ r.global_cpu_usage ∧
      r.global_cpu_usage = max 0 (100 * (1 -
        ((sub64 cSnapB.idle_time cSnapA.idle_time : Nat) : ℚ) /
        (((cSnapB.uptime - cSnapA.uptime : Nat) : ℚ) *
          (({ Meter.new 1 2 3 with snapshots := [cSnapA, cSnapB] } : Meter).num_cpus : ℚ)))) ∧
      (cSnapA.idle_time ≤ cSnapB.idle_time → cSnapB.idle_time < U64 →
        r.global_cpu_usage = max 0 (100 * (1 -
          ((cSnapB.idle_time - cSnapA.idle_time : Nat) : ℚ) /
          (((cSnapB.uptime - cSnapA.uptime : Nat) : ℚ) *
            (({ Meter.new 1 2 3 with snapshots := [cSnapA, cSnapB] } : Meter).num_cpus : ℚ))))) ∧
      (cSnapB.idle_time < cSnapA.idle_time → cSnapA.idle_time < U64 →
        0 < ({ Meter.new 1 2 3 with snapshots := [cSnapA, cSnapB] } : Meter).num_cpus →
        (cSnapB.uptime - cSnapA.uptime) *
            ({ Meter.new 1 2 3 with snapshots := [cSnapA, cSnapB] } : Meter).num_cpus +
          (cSnapA.idle_time - cSnapB.idle_time) ≤ U64 →
        r.global_cpu_usage = 0) :=
  C5_global_cpu ({ Meter.new 1 2 3 with snapshots := [cSnapA, cSnapB] } : Meter)
    [] cSnapA cSnapB rfl (by decide) (by decide)

lemma lookup_some_mem {α β : Type} [BEq α] [LawfulBEq α] {l : List (α × β)}
    {k : α} {v : β} (h : l.lookup k = some v) : (k, v) ∈ l := by
  induction l with
  | nil => simp [List.lookup] at h
  | cons p rest ih =>
    obtain ⟨k0, v0⟩ := p
    by_cases hk : (k == k0) = true
    · simp only [List.lookup, hk] at h
      have hk' : k = k0 := eq_of_beq hk
      cases h
      subst hk'
      exact List.mem_cons_self _ _
    · have hkf : (k == k0) = false := Bool.not_eq_true _ |>.mp hk
      simp only [List.lookup, hkf] at h
      exact List.mem_cons_of_mem _ (ih h)

/-- C9: under the OS guarantee that per-thread tick counters are monotone
(and fit in 64 bits), the thread-report sequence is exactly: the registry
filtered to ids present in both of the two newest snapshots — ids missing
from either are silently skipped, producing no entry at all — each mapped
to its name paired with `100*Δ(user+system)/Δcs`, `100*Δsystem/Δcs` and
`100*Δuser/Δcs`. -/
theorem C9_thread_report_skip (registry : List (Pid × Str)) (last prev : Snapshot)
    (cs : ℚ)
    (hmono : ∀ le ∈ last.threads, ∀ pe ∈ prev.threads, le.1 = pe.1 →
      pe.2.user_time ≤ le.2.user_time ∧ pe.2.system_time ≤ le.2.system_time)
    (hbound : ∀ le ∈ last.threads, le.2.user_time + le.2.system_time < U64) :
    threadReportEntries registry last prev cs =
      (registry.filter (fun e => (last.threads.lookup e.1).isSome &&
        (prev.threads.lookup e.1).isSome)).map (fun e =>
        ((last.threads.lookup e.1).getD ThreadInfo.new,
          (prev.threads.lookup e.1).getD ThreadInfo.new) |>
        (fun q => (e.2,
          { cpu_usage := 100 * (((q.1.user_time + q.1.system_time) -
              (q.2.user_time + q.2.system_time) : Nat) : ℚ) / cs,
            system_cpu := 100 * ((q.1.system_time - q.2.system_time : Nat) : ℚ) / cs,
            user_cpu := 100 * ((q.1.user_time - q.2.user_time : Nat) : ℚ) / cs }))) := by
  induction registry with
  | nil => rfl
  | cons e es ih =>
    rcases hl : last.threads.lookup e.1 with _ | lth
    · simp only [threadReportEntries, List.filterMap_cons, List.filter_cons, hl]
      simpa [threadReportEntries] using ih
    · rcases hp : prev.threads.lookup e.1 with _ | pth
      · simp only [threadReportEntries, List.filterMap_cons, List.filter_cons, hl, hp]
        simpa [threadReportEntries] using ih
      · obtain ⟨h1', h2'⟩ := hmono (e.1, lth) (lookup_some_mem hl)
          (e.1, pth) (lookup_some_mem hp) rfl
        have h1 : pth.user_time ≤ lth.user_time := h1'
        have h2 : pth.system_time ≤ lth.system_time := h2'
        have h3 : lth.user_time + lth.system_time < U64 :=
          hbound (e.1, lth) (lookup_some_mem hl)
        have hsu : sub64 lth.user_time pth.user_time
            = lth.user_time - pth.user_time := sub64_of_le h1 (by omega)
        have hss : sub64 lth.system_time pth.system_time
            = lth.system_time - pth.system_time := sub64_of_le h2 (by omega)
        have hadd : add64 (lth.user_time - pth.user_time)
              (lth.system_time - pth.system_time)
            = (lth.user_time + lth.system_time)
              - (pth.user_time + pth.system_time) := by
          unfold add64
          rw [Nat.mod_eq_of_lt (by omega)]
          omega
        simp only [threadReportEntries, List.filterMap_cons, List.filter_cons, hl, hp]
        rw [show threadReportEntries es last prev cs
            = List.filterMap _ es from rfl] at ih
        simp only [ih]
        simp [hsu, hss, hadd, hl, hp]

/-- C9 witness: with thread 2 absent from the previous snapshot it yields
no entry, while thread 1 gets the delta formulas (`Δcs = 200`). -/
theorem C9_witness :
    threadReportEntries [(1, "a".toList), (2, "b".toList)]
        cThreadLast cThreadPrev 200
      = [("a".toList, { cpu_usage := 3, system_cpu := 1, user_cpu := 2 })] := by
  have h := C9_thread_report_skip [(1, "a".toList), (2, "b".toList)]
    cThreadLast cThreadPrev 200 (by decide) (by decide)
  rw [h]
  simp only [cThreadLast, cThreadPrev]
  norm_num [List.filter, List.lookup, ThreadInfo.new]
  rfl

lemma lookup_cons_pos {β : Type} {k k' : Pid} (v : β) (l : List (Pid × β))
    (h : k = k') : List.lookup k ((k', v) :: l) = some v := by
  subst h
  simp [List.lookup]

lemma lookup_cons_neg {β : Type} {k k' : Pid} (v : β) (l : List (Pid × β))
    (h : k ≠ k') : List.lookup k ((k', v) :: l) = List.lookup k l := by
  simp [List.lookup, beq_false_of_ne h]

lemma lookup_filter_self {β : Type} (l : List (Pid × β)) (tid : Pid) :
    (l.filter (fun p => p.1 ≠ tid)).lookup tid = none := by
  induction l with
  | nil => rfl
  | cons p l ih =>
    obtain ⟨k, v⟩ := p
    by_cases hp : k = tid
    · simp only [List.filter_cons]
      rw [if_neg (by simp [hp])]
      exact ih
    · simp only [List.filter_cons]
      rw [if_pos (by simp [hp])]
      rw [lookup_cons_neg v _ (fun hc => hp hc.symm)]
      exact ih

lemma lookup_filter_other {β : Type} (l : List (Pid × β)) (tid id : Pid)
    (h : id ≠ tid) :
    (l.filter (fun p => p.1 ≠ tid)).lookup id = l.lookup id := by
  induction l with
  | nil => rfl
  | cons p l ih =>
    obtain ⟨k, v⟩ := p
    by_cases hp : k = tid
    · rw [List.filter_cons, if_neg (by simp [hp])]
      rw [lookup_cons_neg v _ (by rw [hp]; exact h)]
      exact ih
    · rw [List.filter_cons, if_pos (by simp [hp])]
      by_cases hid : id = k
      · rw [lookup_cons_pos v _ hid, lookup_cons_pos v _ hid]
      · rw [lookup_cons_neg v _ hid, lookup_cons_neg v _ hid]
        exact ih

lemma lookup_none_ne {β : Type} {l : List (Pid × β)} {tid : Pid}
    (h : l.lookup tid = none) : ∀ p ∈ l, p.1 ≠ tid := by
  induction l with
  | nil => simp
  | cons p l ih =>
    obtain ⟨k, v⟩ := p
    intro q hq
    by_cases hp : tid = k
    · rw [lookup_cons_pos v _ hp] at h
      cases h
    · rw [lookup_cons_neg v _ hp] at h
      rcases List.mem_cons.mp hq with hq' | hq'
      · subst hq'
        exact fun hc => hp hc.symm
      · exact ih h q hq'

lemma lookup_map_new (names : List (Pid × Str)) (tid : Pid)
    (h : names.lookup tid = none) :
    (names.map (fun p => (p.1, ThreadInfo.new))).lookup tid = none := by
  induction names with
  | nil => rfl
  | cons p rest ih =>
    obtain ⟨k, v⟩ := p
    by_cases hp : tid = k
    · rw [lookup_cons_pos v _ hp] at h
      cases h
    · rw [lookup_cons_neg v _ hp] at h
      simp only [List.map_cons]
      rw [lookup_cons_neg ThreadInfo.new _ hp]
      exact ih h

lemma upsertInfo_lookup_ne (t tid : Pid) (info : ThreadInfo)
    (l : List (Pid × ThreadInfo)) (h : tid ≠ t) :
    (upsertInfo t info l).lookup tid = l.lookup tid := by
  induction l with
  | nil =>
    simp only [upsertInfo]
    rw [lookup_cons_neg info _ h]
  | cons p rest ih =>
    obtain ⟨k, v⟩ := p
    by_cases hp : k = t
    · simp only [upsertInfo, if_pos hp]
      subst hp
      rw [lookup_cons_neg info _ h, lookup_cons_neg v _ h]
    · simp only [upsertInfo, if_neg hp]
      by_cases hk : tid = k
      · rw [lookup_cons_pos v _ hk, lookup_cons_pos v _ hk]
      · rw [lookup_cons_neg v _ hk, lookup_cons_neg v _ hk]
        exact ih

lemma readThreadStats_lookup_none (inp : ScanInput) (names : List (Pid × Str))
    (acc acc' : List (Pid × ThreadInfo)) (tid : Pid)
    (hn : names.lookup tid = none) (ha : acc.lookup tid = none)
    (h : readThreadStats inp names acc = .ok acc') :
    acc'.lookup tid = none := by
  induction names generalizing acc with
  | nil =>
    simp only [readThreadStats] at h
    cases h
    exact ha
  | cons p rest ih =>
    obtain ⟨t, name⟩ := p
    have ht : tid ≠ t := by
      intro hc
      rw [lookup_cons_pos name _ hc] at hn
      cases hn
    have hn' : rest.lookup tid = none := by
      rw [lookup_cons_neg name _ ht] at hn
      exact hn
    simp only [readThreadStats] at h
    rcases hts : inp.thread_stat t with _ | txt
    · simp only [hts] at h
      cases h
    · simp only [hts] at h
      rcases hrs : read_stat txt with e | info
      · simp only [hrs] at h
        cases h
      · simp only [hrs] at h
        exact ih (upsertInfo t info acc) hn'
          (by rw [upsertInfo_lookup_ne t tid info acc ht]; exact ha) h

lemma applyStatusLine_threads (snap : Snapshot) (line : Str) (s' : Snapshot)
    (h : applyStatusLine snap line = .ok s') : s'.threads = snap.threads := by
  unfold applyStatusLine at h
  rcases hsp : splitOnChar ':' line with _ | ⟨k, rest2⟩
  · simp only [hsp] at h
    cases h
    rfl
  rcases rest2 with _ | ⟨text, rest⟩
  · simp only [hsp] at h
    cases h
    rfl
  simp only [hsp] at h
  split_ifs at h <;>
    first
      | (cases h; rfl)
      | (rcases hpm : parse_memory text with e | n <;>
          simp only [hpm, exceptBind_err, exceptBind_ok] at h <;>
          [cases h; (cases h; rfl)])

lemma foldStatus_threads (lines : List Str) (snap s' : Snapshot)
    (h : lines.foldlM applyStatusLine snap = .ok s') :
    s'.threads = snap.threads := by
  induction lines generalizing snap with
  | nil =>
    simp only [List.foldlM] at h
    cases h
    rfl
  | cons line rest ih =>
    simp only [List.foldlM] at h
    rcases ha : applyStatusLine snap line with e | s₁ <;> simp only [ha] at h
    · cases h
    · exact (ih s₁ h).trans (applyStatusLine_threads snap line s₁ ha)

lemma read_memory_threads (snap : Snapshot) (text : Str) (s' : Snapshot)
    (h : read_memory snap text = .ok s') : s'.threads = snap.threads :=
  foldStatus_threads (linesOf text) snap s' h

lemma applyIoLine_threads (snap : Snapshot) (line : Str) (s' : Snapshot)
    (h : applyIoLine snap line = .ok s') : s'.threads = snap.threads := by
  unfold applyIoLine at h
  rcases hsp : splitOnChar ':' line with _ | ⟨k, rest2⟩
  · simp only [hsp] at h
    cases h
    rfl
  rcases rest2 with _ | ⟨v, rest⟩
  · simp only [hsp] at h
    cases h
    rfl
  simp only [hsp] at h
  split_ifs at h <;>
    first
      | (cases h; rfl)
      | (rcases hpm : ioNum (trimStr v) with e | n <;>
          simp only [hpm, exceptBind_err, exceptBind_ok] at h <;>
          [cases h; (cases h; rfl)])

lemma foldIo_threads (lines : List Str) (snap s' : Snapshot)
    (h : lines.foldlM applyIoLine snap = .ok s') :
    s'.threads = snap.threads := by
  induction lines generalizing snap with
  | nil =>
    simp only [List.foldlM] at h
    cases h
    rfl
  | cons line rest ih =>
    simp only [List.foldlM] at h
    rcases ha : applyIoLine snap line with e | s₁ <;> simp only [ha] at h
    · cases h
    · exact (ih s₁ h).trans (applyIoLine_threads snap line s₁ ha)

lemma read_io_threads (snap : Snapshot) (text : Str) (s' : Snapshot)
    (h : read_io snap text = .ok s') : s'.threads = snap.threads :=
  foldIo_threads (linesOf text) snap s' h

lemma scanFill_lookup_none (names : List (Pid × Str)) (inp : ScanInput)
    (snap s' : Snapshot) (tid : Pid)
    (hn : names.lookup tid = none) (hs : snap.threads.lookup tid = none)
    (h : scanFill names inp snap = .ok s') : s'.threads.lookup tid = none := by
  unfold scanFill at h
  rcases h1 : inp.uptime_text with _ | ut <;>
    simp only [h1, exceptBind_err, exceptBind_ok] at h
  · cases h
  rcases h2 : (splitWhitespace ut).get? 0 with _ | secTok <;>
    simp only [h2, exceptBind_err, exceptBind_ok] at h
  · cases h
  rcases h3 : (splitWhitespace ut).get? 1 with _ | idleTok <;>
    simp only [h3, exceptBind_err, exceptBind_ok] at h
  · cases h
  rcases h4 : parse_uptime secTok with e | up <;>
    simp only [h4, Except.mapError, exceptBind_err, exceptBind_ok] at h
  · cases h
  rcases h5 : parse_uptime idleTok with e | idle <;>
    simp only [h5, Except.mapError, exceptBind_err, exceptBind_ok] at h
  · cases h
  rcases h6 : inp.stat_text with _ | stext <;>
    simp only [h6, exceptBind_err, exceptBind_ok] at h
  · cases h
  rcases h7 : read_stat stext with e | proc <;>
    simp only [h7, Except.mapError, exceptBind_err, exceptBind_ok] at h
  · cases h
  rcases h8 : readThreadStats inp names snap.threads with e | threads' <;>
    simp only [h8, exceptBind_err, exceptBind_ok] at h
  · cases h
  have hth : threads'.lookup tid = none :=
    readThreadStats_lookup_none inp names snap.threads threads' tid hn hs h8
  rcases h9 : inp.status_text with _ | stat <;>
    simp only [h9, exceptBind_err, exceptBind_ok] at h
  · cases h
  rcases h10 : read_memory
      { snap with
        uptime := up,
        idle_time := idle,
        process := proc,
        threads := threads' } stat with e | s₁ <;>
    simp only [h10, Except.mapError, exceptBind_err, exceptBind_ok] at h
  · cases h
  have hs₁ : s₁.threads = threads' := read_memory_threads _ stat s₁ h10
  rcases h11 : inp.io_text with _ | iot <;>
    simp only [h11, exceptBind_err, exceptBind_ok] at h
  · cases h
  rcases h12 : read_io s₁ iot with e | s₂ <;>
    simp only [h12, exceptBind_err, exceptBind_ok] at h
  · cases h
  have hs₂ : s₂.threads = s₁.threads := read_io_threads s₁ iot s₂ h12
  cases h
  rw [hs₂, hs₁]
  exact hth

lemma scan_thread_names (m : Meter) (inp : ScanInput) :
    (m.scan inp).2.thread_names = m.thread_names := by
  unfold Meter.scan
  by_cases hp : m.num_snapshots ≤ m.snapshots.length <;>
    simp only [hp, if_true, if_false] <;> split <;> rfl

lemma scan_tidFree (m : Meter) (inp : ScanInput) (tid : Pid)
    (h : tidFree m tid) : tidFree (m.scan inp).2 tid := by
  obtain ⟨hreg, hsnaps⟩ := h
  refine ⟨by rw [scan_thread_names]; exact hreg, ?_⟩
  intro s hmem
  unfold Meter.scan at hmem
  by_cases hp : m.num_snapshots ≤ m.snapshots.length
  · simp only [hp, if_true] at hmem
    split at hmem
    · exact hsnaps s (List.mem_of_mem_tail hmem)
    · next snap heq =>
      rcases List.mem_append.mp hmem with hmem' | hmem'
      · exact hsnaps s (List.mem_of_mem_tail hmem')
      · have hone : s = snap := by simpa using hmem'
        subst hone
        have hbase : (m.snapshots.headD dummySnapshot).threads.lookup tid
            = none := by
          cases hsl : m.snapshots with
          | nil => rfl
          | cons s0 rest =>
            simp only [List.headD_cons]
            exact hsnaps s0 (by rw [hsl]; exact List.mem_cons_self s0 rest)
        exact scanFill_lookup_none m.thread_names inp
          { m.snapshots.headD dummySnapshot with
            timestamp := inp.timestamp,
            instant := inp.instant } s tid hreg hbase heq
  · simp only [hp, if_false] at hmem
    split at hmem
    · exact hsnaps s hmem
    · next snap heq =>
      rcases List.mem_append.mp hmem with hmem' | hmem'
      · exact hsnaps s hmem'
      · have hone : s = snap := by simpa using hmem'
        subst hone
        have hbase : (Snapshot.new m.thread_names).threads.lookup tid = none := by
          unfold Snapshot.new
          exact lookup_map_new m.thread_names tid hreg
        exact scanFill_lookup_none m.thread_names inp
          { Snapshot.new m.thread_names with
            timestamp := inp.timestamp,
            instant := inp.instant } s tid hreg hbase heq

lemma entries_from_registry (registry : List (Pid × Str)) (last prev : Snapshot)
    (cs : ℚ) (x : Str × ThreadReport)
    (hx : x ∈ threadReportEntries registry last prev cs) :
    ∃ pid, (pid, x.1) ∈ registry := by
  obtain ⟨e, hmem, hfe⟩ := List.mem_filterMap.mp hx
  refine ⟨e.1, ?_⟩
  rcases hl : last.threads.lookup e.1 with _ | lth <;> rw [hl] at hfe
  · cases hfe
  rcases hp : prev.threads.lookup e.1 with _ | pth <;> rw [hp] at hfe
  · cases hfe
  simp only [Option.some.injEq] at hfe
  have : x.1 = e.2 := by rw [← hfe]
  rw [this]
  exact hmem

lemma getD_map_erase (f : Snapshot → Snapshot) (hf : f dummySnapshot = dummySnapshot)
    (l : List Snapshot) (i : Nat) :
    (l.map f).getD i dummySnapshot = f (l.getD i dummySnapshot) := by
  induction l generalizing i with
  | nil => simp [hf]
  | cons a rest ih =>
    cases i with
    | zero => rfl
    | succ j =>
      simp only [List.map_cons, List.getD_cons_succ]
      exact ih j

/-- C8: `untrack_thread tid` removes `tid` from the registry and from the
per-thread map of every retained snapshot (and from nothing else: lookups
of other ids, every other snapshot field, the store length and all other
meter fields — peaks included — are untouched); the purged state is
`tidFree`, `scan` preserves `tidFree`, and in any `tidFree` state every
`thread_report` entry originates from a registered id different from
`tid`, so `tid` never appears in subsequent thread reports. -/
theorem C8_untrack_thread (m : Meter) (tid : Pid) :
    ((m.untrack_thread tid).thread_names.lookup tid = none) ∧
    (∀ id, id ≠ tid →
      (m.untrack_thread tid).thread_names.lookup id
        = m.thread_names.lookup id) ∧
    ((m.untrack_thread tid).snapshots.length = m.snapshots.length) ∧
    (∀ i,
      ((m.untrack_thread tid).snapshots.getD i dummySnapshot).threads.lookup tid
          = none ∧
      (∀ id, id ≠ tid →
        ((m.untrack_thread tid).snapshots.getD i dummySnapshot).threads.lookup id
          = (m.snapshots.getD i dummySnapshot).threads.lookup id) ∧
      ((m.untrack_thread tid).snapshots.getD i dummySnapshot)
        = { (m.snapshots.getD i dummySnapshot) with
            threads :=
              ((m.untrack_thread tid).snapshots.getD i dummySnapshot).threads }) ∧
    ((m.untrack_thread tid).scan_interval = m.scan_interval ∧
     (m.untrack_thread tid).num_cpus = m.num_cpus ∧
     (m.untrack_thread tid).num_snapshots = m.num_snapshots ∧
     (m.untrack_thread tid).start_time = m.start_time ∧
     (m.untrack_thread tid).memory_rss_peak = m.memory_rss_peak ∧
     (m.untrack_thread tid).memory_swap_peak = m.memory_swap_peak) ∧
    tidFree (m.untrack_thread tid) tid ∧
    (∀ (mm : Meter) (inp : ScanInput), tidFree mm tid →
      tidFree (mm.scan inp).2 tid) ∧
    (∀ mm : Meter, tidFree mm tid → ∀ x ∈ mm.thread_report.getD [],
      ∃ pid, pid ≠ tid ∧ (pid, x.1) ∈ mm.thread_names) := by
  have hgd : ∀ i, (m.untrack_thread tid).snapshots.getD i dummySnapshot
      = (fun s => { s with
          threads := s.threads.filter (fun p => p.1 ≠ tid) })
        (m.snapshots.getD i dummySnapshot) := by
    intro i
    exact getD_map_erase _ rfl m.snapshots i
  refine ⟨lookup_filter_self m.thread_names tid,
    fun id hid => lookup_filter_other m.thread_names tid id hid,
    by simp [Meter.untrack_thread],
    ?_, ⟨rfl, rfl, rfl, rfl, rfl, rfl⟩, ?_, fun mm inp h => scan_tidFree mm inp tid h, ?_⟩
  · intro i
    rw [hgd i]
    exact ⟨lookup_filter_self _ tid,
      fun id hid => lookup_filter_other _ tid id hid, rfl⟩
  · refine ⟨lookup_filter_self m.thread_names tid, ?_⟩
    intro s hs
    obtain ⟨s₀, hs₀, rfl⟩ := List.mem_map.mp hs
    exact lookup_filter_self s₀.threads tid
  · intro mm hmm x hx
    unfold Meter.thread_report at hx
    split at hx
    · simp at hx
    · simp only [Option.getD_some] at hx
      obtain ⟨pid, hpid⟩ := entries_from_registry mm.thread_names _ _ _ x hx
      exact ⟨pid, lookup_none_ne hmm.1 (pid, x.1) hpid, hpid⟩

/-- C8 witness: untracking thread 7 from a two-snapshot meter purges it
from the registry and from both retained snapshots. -/
theorem C8_witness :
    (({ Meter.new 1 1 0 with
        thread_names := [(7, "w".toList)],
        snapshots := [cThreadPrev, cThreadLast] } : Meter).untrack_thread 7
      ).thread_names.lookup 7 = none ∧
    (({ Meter.new 1 1 0 with
        thread_names := [(7, "w".toList)],
        snapshots := [cThreadPrev, cThreadLast] } : Meter).untrack_thread 7
      ).snapshots.length = 2 :=
  ⟨(C8_untrack_thread
      ({ Meter.new 1 1 0 with
         thread_names := [(7, "w".toList)],
         snapshots := [cThreadPrev, cThreadLast] } : Meter) 7).1,
   ((C8_untrack_thread
      ({ Meter.new 1 1 0 with
         thread_names := [(7, "w".toList)],
         snapshots := [cThreadPrev, cThreadLast] } : Meter) 7).2.2.1).trans
     (by decide)⟩
